import Mathlib

/-!
Shallow embedding of `image_downloader.py`: a bulk wiki-image downloader that
verifies local copies against a manifest (size + SHA-1), re-downloads on
mismatch, unconditionally fetches a description document per entry, logs 404s
to an error-log file, and aggregates per-entry error strings into a run report.

The filesystem is an association list from paths to byte lists; the network is
an abstract function from URLs to responses; the SHA-1 digest is an abstract
(possibly failing, since it performs file I/O) function from byte contents to
hex strings.  A ghost `fetchLog` records every Transport fetch attempt
(`requests.get` call) as a (url, destination) pair.
-/

namespace ImageDownloader

/-- File contents as a list of bytes (each a `Nat`). -/
abbrev Bytes := List Nat

/-- The observable behaviour of `requests.get(url)` followed by
`raise_for_status()`:
* `ok body` — a 2xx response whose body streams completely;
* `notFound` — HTTP 404 (`response.status_code == 404`);
* `httpError msg` — any other non-success status (`raise_for_status` raises);
* `netError msg` — a request-level error (DNS failure, timeout, connection
  reset): `requests.get` itself raises. -/
inductive Response where
  | ok (body : Bytes)
  | notFound
  | httpError (msg : String)
  | netError (msg : String)
deriving DecidableEq

/-- The external environment: the remote network and the SHA-1 digest.
`hashFn` models `hashlib.sha1` over full file contents, returning the
lowercase hex digest; it may fail (`Except.error`) because `sha1_hash`
reads the file from disk, which can raise `OSError`. -/
structure Env where
  net : String → Response
  hashFn : Bytes → Except String String

/-- Mutable world state threaded through the run.
* `fs` — the filesystem: most recent write for a path shadows older ones;
* `errorLog` — `error_log.txt`: `none` when the file is absent, `some lines`
  when it exists with the given lines;
* `fetchLog` — ghost trace of `(url, destinationPath)` for every
  Transport fetch attempted. -/
structure St where
  fs : List (String × Bytes)
  errorLog : Option (List String)
  fetchLog : List (String × String)
deriving DecidableEq

/-- Look up a file's contents; the most recent write wins. -/
def fsLookup : List (String × Bytes) → String → Option Bytes
  | [], _ => none
  | (q, c) :: rest, p => if q = p then some c else fsLookup rest p

/-- Write (create or overwrite) a file. -/
def fsWrite (fs : List (String × Bytes)) (p : String) (c : Bytes) :
    List (String × Bytes) :=
  (p, c) :: fs

/-- Append one line to the error log, creating the file if absent
(`open(ERROR_LOG_FILE, 'a')`). -/
def logAppend (log : Option (List String)) (line : String) :
    Option (List String) :=
  some (log.getD [] ++ [line])

def OUTPUT_DIR : String := "images"
def DESC_DIR : String := "descs"

/-- `os.path.join(OUTPUT_DIR, filename)`. -/
def imagePath (filename : String) : String := OUTPUT_DIR ++ "/" ++ filename

/-- `os.path.join(DESC_DIR, filename + '.desc')`. -/
def descPath (filename : String) : String :=
  DESC_DIR ++ "/" ++ filename ++ ".desc"

/-- Uppercase hex digit, as Python's `urllib.parse.quote` produces. -/
def hexDigit (n : Nat) : Char :=
  if n < 10 then Char.ofNat (48 + n) else Char.ofNat (55 + n)

/-- Bytes left unescaped by `urllib.parse.quote` with its default
`safe='/'`: ASCII alphanumerics, `_ . - ~` and `/`. -/
def quoteSafe (b : Nat) : Bool :=
  (65 ≤ b && b ≤ 90) || (97 ≤ b && b ≤ 122) || (48 ≤ b && b ≤ 57) ||
  b = 95 || b = 46 || b = 45 || b = 126 || b = 47

/-- Percent-encode one byte. -/
def quoteByte (b : Nat) : String :=
  if quoteSafe b then String.singleton (Char.ofNat b)
  else "%" ++ String.singleton (hexDigit (b / 16)) ++
       String.singleton (hexDigit (b % 16))

/-- `urllib.parse.quote`: UTF-8-encode the string, percent-encoding every
byte outside the safe set. -/
def quote (s : String) : String :=
  String.join (s.data.map fun c =>
    String.join ((String.utf8EncodeChar c).map fun b => quoteByte b.toNat))

/-- The description URL: `desc_url_template.format(filename=quote(filename))`
for the template `f"{base_wiki_url}/wiki/Special:Export/File:{{filename}}"`. -/
def descUrl (base filename : String) : String :=
  base ++ "/wiki/Special:Export/File:" ++ quote filename

/-- `sha1_hash(filepath)`: read the file in chunks and return the hex digest
of its full contents.  Callers check existence first; on a missing file we
digest the empty contents (the code never reaches this case). -/
def sha1_hash (env : Env) (fs : List (String × Bytes)) (filepath : String) :
    Except String String :=
  env.hashFn ((fsLookup fs filepath).getD [])

/-- `download_with_progress(url, path, label, error_context)`.
Returns the updated state and the `(success, error)` pair:
* 404 → append `"{error_context}\t{url}\n"` to the error log, return
  `(False, "404 Not Found")`, destination untouched;
* other HTTP error / request-level error → the raised exception is caught,
  returning `(False, str(e))`, destination untouched;
* 2xx → stream the body to `path`, return `(True, "")`. -/
def download_with_progress (env : Env) (url path _label error_context : String)
    (s : St) : St × Bool × String :=
  let s1 : St := { s with fetchLog := s.fetchLog ++ [(url, path)] }
  match env.net url with
  | .notFound =>
      ({ s1 with
          errorLog := logAppend s1.errorLog (error_context ++ "\t" ++ url ++ "\n") },
       false, "404 Not Found")
  | .httpError msg => (s1, false, msg)
  | .netError msg => (s1, false, msg)
  | .ok body => ({ s1 with fs := fsWrite s1.fs path body }, true, "")

/-- The body of `download_image_and_desc`'s `try:` block, for a well-formed
entry.  Returns `.error e` when an exception is raised inside the block (the
only modelled raiser is `sha1_hash`'s file I/O); otherwise `.ok` with the
final state and this entry's error strings. -/
def worker_try (env : Env) (base filename url size sha1 : String) (s : St) :
    Except String (St × List String) :=
  let filepath := imagePath filename
  let descpath := descPath filename
  let decide_download : Except String Bool :=
    match fsLookup s.fs filepath with
    | none => .ok true
    | some contents =>
        match env.hashFn contents with
        | .error e => .error e
        | .ok actual_sha1 =>
            .ok (!(toString contents.length = size && actual_sha1 = sha1))
  match decide_download with
  | .error e => .error e
  | .ok download_image =>
    let step1 : St × List String :=
      if download_image then
        let r := download_with_progress env url filepath
                   ("Image: " ++ filename) filename s
        (r.1, if r.2.1 then [] else
          [filename ++ " - image failed: " ++ r.2.2])
      else (s, [])
    let desc_url := descUrl base filename
    let r2 := download_with_progress env desc_url descpath
                ("Desc: " ++ filename) (filename ++ ".desc") step1.1
    let errs2 := if r2.2.1 then [] else
      [filename ++ " - desc failed: " ++ r2.2.2]
    .ok (r2.1, step1.2 ++ errs2)

/-- `download_image_and_desc(entry)`.  The tuple unpack
`filename, url, uploader, size, sha1 = entry` happens BEFORE the `try:`
block, so an entry with a field count other than 5 raises `ValueError`
out of the function (`.error`).  Inside the `try:`, any exception is caught
and converted to a single "unexpected error" string. -/
def download_image_and_desc (env : Env) (base : String) (entry : List String)
    (s : St) : Except String (St × List String) :=
  match entry with
  | [filename, url, _uploader, size, sha1] =>
      match worker_try env base filename url size sha1 s with
      | .ok r => .ok r
      | .error e =>
          .ok (s, [filename ++ " - unexpected error: " ++ e])
  | _ => .error "ValueError: entry does not unpack into 5 fields"

/-- `executor.map(download_image_and_desc, entries)` with the surrounding
`all_errors.extend(result)` loop: workers run per entry, results are
collected in submission order, and a worker's uncaught exception re-raises
at collection time, aborting the run. -/
def runAll (env : Env) (base : String) :
    List (List String) → St → Except String (St × List String)
  | [], s => .ok (s, [])
  | e :: rest, s =>
      match download_image_and_desc env base e s with
      | .error msg => .error msg
      | .ok (s1, errs) =>
          match runAll env base rest s1 with
          | .error msg => .error msg
          | .ok (s2, allErrs) => .ok (s2, errs ++ allErrs)

/-- `main()` from the entry list onward: delete the error log if it exists,
then run all entries through the pool and aggregate their error strings. -/
def main (env : Env) (base : String) (entries : List (List String)) (s : St) :
    Except String (St × List String) :=
  runAll env base entries { s with errorLog := none }

/-- The source's verification condition at line 62 read off the state: the
local asset for `filename` exists and its observed byte length (as a decimal
string) equals the manifest's `expectedSize` string and its digest equals the
manifest's `expectedHash`. -/
def assetUpToDate (env : Env) (fs : List (String × Bytes))
    (filename size sha1 : String) : Bool :=
  match fsLookup fs (imagePath filename) with
  | none => false
  | some c =>
      match env.hashFn c with
      | .error _ => false
      | .ok hv => toString c.length = size && hv = sha1

/-- Transport fetches whose destination is the asset path of `filename`. -/
def assetFetches (fl : List (String × String)) (filename : String) :
    List (String × String) :=
  fl.filter fun pr => pr.2 = imagePath filename

/-- Transport fetches whose destination is the description path of
`filename`. -/
def descFetches (fl : List (String × String)) (filename : String) :
    List (String × String) :=
  fl.filter fun pr => pr.2 = descPath filename

/-- The asset destination path derived from an entry (line 53: the first
unpacked field is `filename`). -/
def entryAssetPath (e : List String) : String := imagePath (e.headD "")

/-- The description destination path derived from an entry (line 54). -/
def entryDescPath (e : List String) : String := descPath (e.headD "")

/-- The per-entry error lists, in manifest order: the list whose i-th element
is the error list returned by the i-th worker invocation (empty tail once a
worker raises). -/
def entryErrorLists (env : Env) (base : String) :
    List (List String) → St → List (List String)
  | [], _ => []
  | e :: rest, s =>
      match download_image_and_desc env base e s with
      | .error _ => []
      | .ok (s1, errs) => errs :: entryErrorLists env base rest s1

/-! ### Concrete fixtures used by witnesses -/

/-- Every URL serves the one-byte body `[7]`; digests are always `"aa"`. -/
def envOkW : Env := ⟨fun _ => .ok [7], fun _ => .ok "aa"⟩

/-- The digest computation always raises (models an `OSError` while
reading the file for hashing). -/
def envErrW : Env := ⟨fun _ => .ok [7], fun _ => .error "Disk I/O error"⟩

/-- Every URL answers 404. -/
def env404W : Env := ⟨fun _ => .notFound, fun _ => .ok "aa"⟩

/-- The asset URL `http://u` times out; every other URL succeeds. -/
def envFailW : Env :=
  ⟨fun url => if url = "http://u" then .netError "timed out" else .ok [7],
   fun _ => .ok "aa"⟩

/-- An empty starting world. -/
def stEmptyW : St := ⟨[], none, []⟩

/-- A world with a stale error log left over from a previous run. -/
def stLogW : St := ⟨[], some ["old\thttp://z\n"], []⟩

/-- The world after running `main envOkW "http://w"` on the single entry
`["x", "http://u", "al", "1", "aa"]` from an empty world. -/
def s1W : St :=
  ⟨[("descs/x.desc", [7]), ("images/x", [7])], none,
   [("http://u", "images/x"), ("http://w/wiki/Special:Export/File:x", "descs/x.desc")]⟩

/-- A world already holding a one-byte asset for filename `"x"`. -/
def stFileW : St := ⟨[(imagePath "x", [3])], none, []⟩

/-! ### Path lemmas -/

theorem imagePath_inj {f g : String} (h : imagePath f = imagePath g) :
    f = g := by
  have h2 := congrArg String.data h
  simp only [imagePath, OUTPUT_DIR, String.data_append] at h2
  exact String.ext (List.append_cancel_left h2)

theorem descPath_inj {f g : String} (h : descPath f = descPath g) :
    f = g := by
  have h2 := congrArg String.data h
  simp only [descPath, DESC_DIR, String.data_append, List.append_assoc] at h2
  exact String.ext (List.append_cancel_right
    (List.append_cancel_left (List.append_cancel_left h2)))

theorem imagePath_ne_descPath (f g : String) : imagePath f ≠ descPath g := by
  intro h
  have h2 := congrArg String.data h
  simp [imagePath, descPath, OUTPUT_DIR, DESC_DIR, String.data_append] at h2

/-! ### Filesystem lemmas -/

theorem fsLookup_fsWrite_ne (fs : List (String × Bytes)) {p q : String}
    (c : Bytes) (h : p ≠ q) : fsLookup (fsWrite fs p c) q = fsLookup fs q := by
  simp [fsWrite, fsLookup, h]

/-! ### Transport equations -/

theorem dwp_notFound (env : Env) (url path label ctx : String) (s : St)
    (h : env.net url = .notFound) :
    download_with_progress env url path label ctx s =
      ({ fs := s.fs,
         errorLog := some (s.errorLog.getD [] ++ [ctx ++ "\t" ++ url ++ "\n"]),
         fetchLog := s.fetchLog ++ [(url, path)] }, false, "404 Not Found") := by
  simp [download_with_progress, h, logAppend]

theorem dwp_httpError (env : Env) (url path label ctx msg : String) (s : St)
    (h : env.net url = .httpError msg) :
    download_with_progress env url path label ctx s =
      ({ s with fetchLog := s.fetchLog ++ [(url, path)] }, false, msg) := by
  simp [download_with_progress, h]

theorem dwp_netError (env : Env) (url path label ctx msg : String) (s : St)
    (h : env.net url = .netError msg) :
    download_with_progress env url path label ctx s =
      ({ s with fetchLog := s.fetchLog ++ [(url, path)] }, false, msg) := by
  simp [download_with_progress, h]

theorem dwp_ok (env : Env) (url path label ctx : String) (body : Bytes)
    (s : St) (h : env.net url = .ok body) :
    download_with_progress env url path label ctx s =
      ({ s with
          fs := fsWrite s.fs path body,
          fetchLog := s.fetchLog ++ [(url, path)] }, true, "") := by
  simp [download_with_progress, h]

theorem dwp_fetchLog (env : Env) (url path label ctx : String) (s : St) :
    (download_with_progress env url path label ctx s).1.fetchLog =
      s.fetchLog ++ [(url, path)] := by
  unfold download_with_progress
  cases env.net url <;> rfl

theorem dwp_errorLog_no404 (env : Env) (url path label ctx : String) (s : St)
    (h : env.net url ≠ .notFound) :
    (download_with_progress env url path label ctx s).1.errorLog =
      s.errorLog := by
  unfold download_with_progress
  cases hn : env.net url <;> simp_all

theorem dwp_fs (env : Env) (url path label ctx : String) (s : St) :
    (download_with_progress env url path label ctx s).1.fs = s.fs ∨
    ∃ body, (download_with_progress env url path label ctx s).1.fs =
      fsWrite s.fs path body := by
  unfold download_with_progress
  cases env.net url with
  | ok body => exact .inr ⟨body, rfl⟩
  | notFound => exact .inl rfl
  | httpError msg => exact .inl rfl
  | netError msg => exact .inl rfl

/-- Reduce `assetUpToDate` once the lookup result is known. -/
theorem assetUpToDate_some {env : Env} {fs : List (String × Bytes)}
    {f : String} {c : Bytes} (sz hs : String)
    (hc : fsLookup fs (imagePath f) = some c) :
    assetUpToDate env fs f sz hs =
      (match env.hashFn c with
       | .error _ => false
       | .ok hv => toString c.length = sz && hv = hs) := by
  unfold assetUpToDate
  rw [hc]

/-! ### Worker lemmas -/

/-- When the digest computation does not raise, the worker runs:
skip-or-download the asset according to `assetUpToDate`, then always fetch
the description. -/
theorem worker_run (env : Env) (base f u up sz hs : String) (s : St)
    (hhash : ∀ c, fsLookup s.fs (imagePath f) = some c →
      ∃ hv, env.hashFn c = .ok hv) :
    download_image_and_desc env base [f, u, up, sz, hs] s =
      (let r1 : St × List String :=
        if assetUpToDate env s.fs f sz hs then (s, [])
        else
          (let r := download_with_progress env u (imagePath f)
                      ("Image: " ++ f) f s
           (r.1, if r.2.1 then [] else [f ++ " - image failed: " ++ r.2.2]))
       let r2 := download_with_progress env (descUrl base f) (descPath f)
                   ("Desc: " ++ f) (f ++ ".desc") r1.1
       .ok (r2.1, r1.2 ++ if r2.2.1 then [] else
         [f ++ " - desc failed: " ++ r2.2.2])) := by
  unfold download_image_and_desc worker_try assetUpToDate
  cases hl : fsLookup s.fs (imagePath f) with
  | none => simp [hl]
  | some c =>
    obtain ⟨hv, hh⟩ := hhash c hl
    cases hc : (toString c.length = sz && hv = hs) <;>
      simp [hl, hh, hc]

/-- A well-formed (5-field) entry never lets an exception escape the
worker. -/
theorem worker_ok (env : Env) (base a b c d e : String) (s : St) :
    ∃ r, download_image_and_desc env base [a, b, c, d, e] s = .ok r := by
  unfold download_image_and_desc
  cases h : worker_try env base a b d e s <;> simp [h]

/-- Any list of length 5 is literally a 5-element list. -/
theorem list_len5 {α : Type} {e : List α} (h : e.length = 5) :
    ∃ a b c d f, e = [a, b, c, d, f] := by
  match e, h with
  | [a, b, c, d, f], _ => exact ⟨a, b, c, d, f, rfl⟩

/-- When no URL answers 404 the worker never touches the error log. -/
theorem worker_errorLog_no404 (env : Env) (base f u up sz hs : String)
    (s : St) (hno : ∀ url, env.net url ≠ .notFound) :
    ∃ s2 errs, download_image_and_desc env base [f, u, up, sz, hs] s =
        .ok (s2, errs) ∧ s2.errorLog = s.errorLog := by
  have hpres : ∀ url path label ctx t,
      (download_with_progress env url path label ctx t).1.errorLog =
        t.errorLog :=
    fun url path label ctx t =>
      dwp_errorLog_no404 env url path label ctx t (hno url)
  by_cases hfail : ∃ cts msg, fsLookup s.fs (imagePath f) = some cts ∧
      env.hashFn cts = .error msg
  · obtain ⟨cts, msg, hl, hh⟩ := hfail
    exact ⟨s, [f ++ " - unexpected error: " ++ msg],
      by unfold download_image_and_desc worker_try; simp [hl, hh], rfl⟩
  · have hhash : ∀ c, fsLookup s.fs (imagePath f) = some c →
        ∃ hv, env.hashFn c = .ok hv := by
      intro c hc
      cases hh : env.hashFn c with
      | error m => exact absurd ⟨c, m, hc, hh⟩ hfail
      | ok hv => exact ⟨hv, rfl⟩
    rw [worker_run env base f u up sz hs s hhash]
    cases hskip : assetUpToDate env s.fs f sz hs with
    | true => exact ⟨_, _, rfl, by simp [hpres]⟩
    | false => exact ⟨_, _, rfl, by simp [hpres]⟩

/-- `assetUpToDate` only looks at the asset path of its own filename. -/
theorem assetUpToDate_congr (env : Env) {fs fs' : List (String × Bytes)}
    (f sz hs : String)
    (h : fsLookup fs' (imagePath f) = fsLookup fs (imagePath f)) :
    assetUpToDate env fs' f sz hs = assetUpToDate env fs f sz hs := by
  unfold assetUpToDate
  rw [h]

/-- A worker whose asset verifies fetches only the description and leaves
every asset path's contents unchanged. -/
theorem worker_skip (env : Env) (base f u up sz hs : String) (s : St)
    (hup : assetUpToDate env s.fs f sz hs = true) :
    ∃ s2 errs, download_image_and_desc env base [f, u, up, sz, hs] s =
        .ok (s2, errs) ∧
      s2.fetchLog = s.fetchLog ++ [(descUrl base f, descPath f)] ∧
      ∀ q, fsLookup s2.fs (imagePath q) = fsLookup s.fs (imagePath q) := by
  have hhash : ∀ c, fsLookup s.fs (imagePath f) = some c →
      ∃ hv, env.hashFn c = .ok hv := by
    intro c hc
    rw [assetUpToDate_some sz hs hc] at hup
    cases hh : env.hashFn c with
    | error m => rw [hh] at hup; exact absurd hup (by simp)
    | ok hv => exact ⟨hv, rfl⟩
  rw [worker_run env base f u up sz hs s hhash, hup]
  refine ⟨(download_with_progress env (descUrl base f) (descPath f)
      ("Desc: " ++ f) (f ++ ".desc") s).1, _, rfl, ?_, ?_⟩
  · rw [dwp_fetchLog]
  · intro q
    rcases dwp_fs env (descUrl base f) (descPath f)
        ("Desc: " ++ f) (f ++ ".desc") s with h | ⟨body, h⟩
    · rw [h]
    · rw [h, fsLookup_fsWrite_ne s.fs body
        (Ne.symm (imagePath_ne_descPath q f))]

/-- If every entry's asset verifies against the starting filesystem, the
whole run performs only description fetches and preserves every asset
path. -/
theorem runAll_skip_all (env : Env) (base : String)
    (entries : List (List String)) (s : St)
    (hup : ∀ e ∈ entries, ∃ f u up sz hs, e = [f, u, up, sz, hs] ∧
      assetUpToDate env s.fs f sz hs = true) :
    ∃ s2 errs, runAll env base entries s = .ok (s2, errs) ∧
      (∀ pr ∈ s2.fetchLog, pr ∈ s.fetchLog ∨ ∃ g, pr.2 = descPath g) ∧
      ∀ q, fsLookup s2.fs (imagePath q) = fsLookup s.fs (imagePath q) := by
  revert hup
  induction entries generalizing s with
  | nil => exact fun _ => ⟨s, [], rfl, fun pr hpr => .inl hpr, fun q => rfl⟩
  | cons e rest ih =>
    intro hup
    obtain ⟨f, u, up, sz, hs, rfl, hupe⟩ := hup e (List.mem_cons_self e rest)
    obtain ⟨s1, errs1, heq1, hfl1, hfs1⟩ :=
      worker_skip env base f u up sz hs s hupe
    have hrest : ∀ e' ∈ rest, ∃ f' u' up' sz' hs',
        e' = [f', u', up', sz', hs'] ∧
        assetUpToDate env s1.fs f' sz' hs' = true := by
      intro e' he'
      obtain ⟨f', u', up', sz', hs', rfl, hupe'⟩ :=
        hup e' (List.mem_cons_of_mem _ he')
      exact ⟨f', u', up', sz', hs', rfl, by
        rw [assetUpToDate_congr env f' sz' hs' (hfs1 f')]; exact hupe'⟩
    obtain ⟨s2, errs2, heq2, hfl2, hfs2⟩ := ih s1 hrest
    refine ⟨s2, errs1 ++ errs2, by simp [runAll, heq1, heq2], ?_, ?_⟩
    · intro pr hpr
      rcases hfl2 pr hpr with hin | hg
      · rw [hfl1] at hin
        rcases List.mem_append.1 hin with h1 | h2
        · exact .inl h1
        · exact .inr ⟨f, by rw [List.mem_singleton.1 h2]⟩
      · exact .inr hg
    · intro q; rw [hfs2 q, hfs1 q]

/-- The run's aggregate error list is the in-order concatenation of the
per-entry error lists, one per entry. -/
theorem runAll_join (env : Env) (base : String)
    (entries : List (List String)) (s : St)
    (h5 : ∀ e ∈ entries, e.length = 5) :
    ∃ s2, runAll env base entries s =
        .ok (s2, (entryErrorLists env base entries s).flatten) ∧
      (entryErrorLists env base entries s).length = entries.length := by
  revert h5
  induction entries generalizing s with
  | nil => exact fun _ => ⟨s, rfl, rfl⟩
  | cons e rest ih =>
    intro h5
    obtain ⟨a, b, c, d, f, rfl⟩ := list_len5 (h5 e (List.mem_cons_self e rest))
    obtain ⟨⟨s1, errs1⟩, heq1⟩ := worker_ok env base a b c d f s
    obtain ⟨s2, heq2, hlen⟩ :=
      ih s1 (fun e' he' => h5 e' (List.mem_cons_of_mem _ he'))
    refine ⟨s2, ?_, ?_⟩
    · simp [runAll, entryErrorLists, heq1, heq2]
    · simp [entryErrorLists, heq1, hlen]

/-- When no URL answers 404 the whole run leaves the error log as it
started. -/
theorem runAll_errorLog_no404 (env : Env) (base : String)
    (entries : List (List String)) (s : St)
    (h5 : ∀ e ∈ entries, e.length = 5)
    (hno : ∀ url, env.net url ≠ .notFound) :
    ∃ s2 errs, runAll env base entries s = .ok (s2, errs) ∧
      s2.errorLog = s.errorLog := by
  revert h5
  induction entries generalizing s with
  | nil => exact fun _ => ⟨s, [], rfl, rfl⟩
  | cons e rest ih =>
    intro h5
    obtain ⟨a, b, c, d, f, rfl⟩ := list_len5 (h5 e (List.mem_cons_self e rest))
    obtain ⟨s1, errs1, heq1, hlog1⟩ :=
      worker_errorLog_no404 env base a b c d f s hno
    obtain ⟨s2, errs2, heq2, hlog2⟩ :=
      ih s1 (fun e' he' => h5 e' (List.mem_cons_of_mem _ he'))
    exact ⟨s2, errs1 ++ errs2, by simp [runAll, heq1, heq2],
      by rw [hlog2, hlog1]⟩

/-! ### Claims -/

/-- C1: for every manifest entry, the asset is re-downloaded (exactly one
Transport fetch targets the asset path) if and only if the local asset file
is absent or its observed size (as a decimal string) or digest fails to
match the manifest's literal `expectedSize`/`expectedHash` strings; when the
file exists and both match, Transport.fetch is not invoked for the asset. -/
theorem C1_verify_iff_refetch (env : Env) (base f u up sz hs : String)
    (s : St) (hfl : s.fetchLog = [])
    (hhash : ∀ c, fsLookup s.fs (imagePath f) = some c →
      ∃ hv, env.hashFn c = .ok hv) :
    ∃ s2 errs, download_image_and_desc env base [f, u, up, sz, hs] s =
        .ok (s2, errs) ∧
      (assetFetches s2.fetchLog f).length =
        (if assetUpToDate env s.fs f sz hs then 0 else 1) := by
  rw [worker_run env base f u up sz hs s hhash]
  cases hskip : assetUpToDate env s.fs f sz hs with
  | true =>
    refine ⟨_, _, rfl, ?_⟩
    rw [dwp_fetchLog]
    simp [hfl, assetFetches, Ne.symm (imagePath_ne_descPath f f)]
  | false =>
    refine ⟨_, _, rfl, ?_⟩
    rw [dwp_fetchLog]
    simp [hfl, assetFetches, dwp_fetchLog,
      Ne.symm (imagePath_ne_descPath f f)]

/-- C1 witness: with the asset already present and matching, the worker
performs zero asset fetches. -/
theorem C1_verify_iff_refetch_witness :
    ∃ s2 errs, download_image_and_desc envOkW "http://w"
        ["x", "http://u", "al", "1", "aa"] stFileW = .ok (s2, errs) ∧
      (assetFetches s2.fetchLog "x").length =
        (if assetUpToDate envOkW stFileW.fs "x" "1" "aa" then 0 else 1) :=
  C1_verify_iff_refetch envOkW "http://w" "x" "http://u" "al" "1" "aa"
    stFileW rfl (fun _ _ => ⟨"aa", rfl⟩)

/-- C2 counterexample: a malformed entry (wrong field count) raises at the
tuple unpack, which sits before the `try:` block, so the exception escapes
the worker and aborts the whole run, including the later well-formed
entry. -/
theorem C2_counterexample :
    download_image_and_desc envOkW "http://w" ["lonely.png"] stEmptyW =
      .error "ValueError: entry does not unpack into 5 fields" ∧
    main envOkW "http://w" [["lonely.png"], ["x", "http://u", "al", "1", "aa"]]
        stEmptyW =
      .error "ValueError: entry does not unpack into 5 fields" :=
  ⟨rfl, rfl⟩

/-- C2 amended: for every well-formed (5-field) entry, any exception raised
inside the worker's `try:` block is caught and converted to a single
"unexpected error" string returned as data, and the worker always returns
normally; a malformed entry with the wrong field count, however, raises at
the tuple unpack before the `try:` and aborts the run. -/
theorem C2_entry_errors_contained (env : Env) (base f u up sz hs : String)
    (s : St) :
    (∃ r, download_image_and_desc env base [f, u, up, sz, hs] s = .ok r) ∧
    (∀ cts msg, fsLookup s.fs (imagePath f) = some cts →
      env.hashFn cts = .error msg →
      download_image_and_desc env base [f, u, up, sz, hs] s =
        .ok (s, [f ++ " - unexpected error: " ++ msg])) := by
  refine ⟨worker_ok env base f u up sz hs s, ?_⟩
  intro cts msg hc hh
  unfold download_image_and_desc worker_try
  simp [hc, hh]

/-- C2 witness: a digest failure inside the `try:` is returned as one
"unexpected error" string. -/
theorem C2_entry_errors_contained_witness :
    download_image_and_desc envErrW "http://w"
        ["x", "http://u", "al", "1", "aa"] stFileW =
      .ok (stFileW, ["x" ++ " - unexpected error: " ++ "Disk I/O error"]) :=
  (C2_entry_errors_contained envErrW "http://w" "x" "http://u" "al" "1" "aa"
    stFileW).2 [3] "Disk I/O error" rfl rfl

/-- C3: a 404 fetch returns the not-found outcome without raising, never
creates or overwrites the destination (the filesystem is untouched), and
appends exactly one line `"{context}\t{url}\n"` to the error log, creating
it if absent; on an entry whose asset and description both 404, the contexts
are `filename` and `filename ++ ".desc"` respectively and each 404 yields
exactly one error string in the entry's report. -/
theorem C3_notFound_handling (env : Env) (base f u up sz hs : String)
    (s : St) (habs : fsLookup s.fs (imagePath f) = none)
    (h404a : env.net u = .notFound)
    (h404d : env.net (descUrl base f) = .notFound) :
    (∀ url path label ctx : String, ∀ t : St, env.net url = .notFound →
      download_with_progress env url path label ctx t =
        ({ fs := t.fs,
           errorLog := some (t.errorLog.getD [] ++ [ctx ++ "\t" ++ url ++ "\n"]),
           fetchLog := t.fetchLog ++ [(url, path)] }, false, "404 Not Found")) ∧
    download_image_and_desc env base [f, u, up, sz, hs] s = .ok
      ({ fs := s.fs,
         errorLog := some (s.errorLog.getD [] ++
           [f ++ "\t" ++ u ++ "\n", f ++ ".desc" ++ "\t" ++ descUrl base f ++ "\n"]),
         fetchLog := s.fetchLog ++ [(u, imagePath f), (descUrl base f, descPath f)] },
       [f ++ " - image failed: " ++ "404 Not Found",
        f ++ " - desc failed: " ++ "404 Not Found"]) := by
  refine ⟨fun url path label ctx t h => dwp_notFound env url path label ctx t h, ?_⟩
  unfold download_image_and_desc worker_try
  simp [habs, download_with_progress, h404a, h404d, logAppend]

/-- C3 witness: both fetches 404 on an absent asset. -/
theorem C3_notFound_handling_witness :
    download_image_and_desc env404W "http://w"
        ["x", "http://u", "al", "1", "aa"] stEmptyW = .ok
      ({ fs := stEmptyW.fs,
         errorLog := some (stEmptyW.errorLog.getD [] ++
           ["x" ++ "\t" ++ "http://u" ++ "\n",
            "x" ++ ".desc" ++ "\t" ++ descUrl "http://w" "x" ++ "\n"]),
         fetchLog := stEmptyW.fetchLog ++
           [("http://u", imagePath "x"), (descUrl "http://w" "x", descPath "x")] },
       ["x" ++ " - image failed: " ++ "404 Not Found",
        "x" ++ " - desc failed: " ++ "404 Not Found"]) :=
  (C3_notFound_handling env404W "http://w" "x" "http://u" "al" "1" "aa"
    stEmptyW rfl rfl rfl).2

/-- C4: for every manifest entry (once the digest computation succeeds), the
description document is fetched exactly once, unconditionally — whatever the
asset verification or download outcome — and the fetch uses the URL obtained
by substituting the percent-encoded filename into the wiki export URL
template. -/
theorem C4_desc_always_fetched (env : Env) (base f u up sz hs : String)
    (s : St) (hfl : s.fetchLog = [])
    (hhash : ∀ c, fsLookup s.fs (imagePath f) = some c →
      ∃ hv, env.hashFn c = .ok hv) :
    ∃ s2 errs, download_image_and_desc env base [f, u, up, sz, hs] s =
        .ok (s2, errs) ∧
      descFetches s2.fetchLog f = [(descUrl base f, descPath f)] := by
  rw [worker_run env base f u up sz hs s hhash]
  cases hskip : assetUpToDate env s.fs f sz hs with
  | true =>
    refine ⟨_, _, rfl, ?_⟩
    rw [dwp_fetchLog]
    simp [hfl, descFetches]
  | false =>
    refine ⟨_, _, rfl, ?_⟩
    rw [dwp_fetchLog]
    simp [hfl, descFetches, dwp_fetchLog, imagePath_ne_descPath f f]

/-- C4 witness: asset absent (so the asset is downloaded), and the
description is still fetched exactly once with the templated URL. -/
theorem C4_desc_always_fetched_witness :
    ∃ s2 errs, download_image_and_desc envOkW "http://w"
        ["x", "http://u", "al", "1", "aa"] stEmptyW = .ok (s2, errs) ∧
      descFetches s2.fetchLog "x" = [(descUrl "http://w" "x", descPath "x")] :=
  C4_desc_always_fetched envOkW "http://w" "x" "http://u" "al" "1" "aa"
    stEmptyW rfl (fun _ _ => ⟨"aa", rfl⟩)

/-- C5: a non-2xx/non-404 status or a request-level error is returned as a
failure outcome carrying the message instead of raising, produces no error
log record, and on an entry whose asset fetch fails this way the entry still
returns normally with exactly one error string and the description fetch
still happens. -/
theorem C5_failure_nonfatal (env : Env) (base f u up sz hs m : String)
    (body : Bytes) (s : St)
    (habs : fsLookup s.fs (imagePath f) = none)
    (hfail : env.net u = .netError m)
    (hdesc : env.net (descUrl base f) = .ok body) :
    (∀ url path label ctx msg : String, ∀ t : St,
      env.net url = .httpError msg →
      download_with_progress env url path label ctx t =
        ({ t with fetchLog := t.fetchLog ++ [(url, path)] }, false, msg)) ∧
    (∀ url path label ctx msg : String, ∀ t : St,
      env.net url = .netError msg →
      download_with_progress env url path label ctx t =
        ({ t with fetchLog := t.fetchLog ++ [(url, path)] }, false, msg)) ∧
    download_image_and_desc env base [f, u, up, sz, hs] s = .ok
      ({ fs := fsWrite s.fs (descPath f) body,
         errorLog := s.errorLog,
         fetchLog := s.fetchLog ++
           [(u, imagePath f), (descUrl base f, descPath f)] },
       [f ++ " - image failed: " ++ m]) := by
  refine ⟨fun url path label ctx msg t h =>
      dwp_httpError env url path label ctx msg t h,
    fun url path label ctx msg t h =>
      dwp_netError env url path label ctx msg t h, ?_⟩
  unfold download_image_and_desc worker_try
  simp [habs, download_with_progress, hfail, hdesc]

/-- C5 witness: the asset URL times out; the entry reports one error, the
error log is untouched, and the description is still downloaded. -/
theorem C5_failure_nonfatal_witness :
    download_image_and_desc envFailW "http://w"
        ["x", "http://u", "al", "1", "aa"] stEmptyW = .ok
      ({ fs := fsWrite stEmptyW.fs (descPath "x") [7],
         errorLog := stEmptyW.errorLog,
         fetchLog := stEmptyW.fetchLog ++
           [("http://u", imagePath "x"), (descUrl "http://w" "x", descPath "x")] },
       ["x" ++ " - image failed: " ++ "timed out"]) :=
  (C5_failure_nonfatal envFailW "http://w" "x" "http://u" "al" "1" "aa"
    "timed out" [7] stEmptyW rfl rfl rfl).2.2

/-- C6: for every list of well-formed manifest entries, each entry is
processed by exactly one worker invocation (the per-entry error-list
sequence has one element per entry) and the final report's error count is
the sum of the per-entry error counts. -/
theorem C6_report_aggregation (env : Env) (base : String)
    (entries : List (List String)) (s : St)
    (h5 : ∀ e ∈ entries, e.length = 5) :
    ∃ s2 errs, main env base entries s = .ok (s2, errs) ∧
      (entryErrorLists env base entries { s with errorLog := none }).length =
        entries.length ∧
      errs.length = ((entryErrorLists env base entries
        { s with errorLog := none }).map List.length).sum := by
  obtain ⟨s2, heq, hlen⟩ :=
    runAll_join env base entries { s with errorLog := none } h5
  exact ⟨s2, _, heq, hlen, by rw [List.length_flatten]⟩

/-- C6 witness: a two-entry run aggregates both entries' error lists. -/
theorem C6_report_aggregation_witness :
    ∃ s2 errs, main env404W "http://w"
        [["x", "http://u", "al", "1", "aa"], ["y", "http://v", "bob", "2", "bb"]]
        stEmptyW = .ok (s2, errs) ∧
      (entryErrorLists env404W "http://w"
        [["x", "http://u", "al", "1", "aa"], ["y", "http://v", "bob", "2", "bb"]]
        { stEmptyW with errorLog := none }).length = 2 ∧
      errs.length = ((entryErrorLists env404W "http://w"
        [["x", "http://u", "al", "1", "aa"], ["y", "http://v", "bob", "2", "bb"]]
        { stEmptyW with errorLog := none }).map List.length).sum :=
  C6_report_aggregation env404W "http://w"
    [["x", "http://u", "al", "1", "aa"], ["y", "http://v", "bob", "2", "bb"]]
    stEmptyW (by decide)

/-- C7: running the pipeline a second time over the same manifest, with no
remote changes and no local deletions, performs zero asset re-downloads:
every Transport fetch of the second run targets a description path, provided
the verification invariant holds after the first run. -/
theorem C7_second_run_no_refetch (env : Env) (base : String)
    (entries : List (List String)) (s0 s1 : St) (errs1 : List String)
    (_hrun1 : main env base entries s0 = .ok (s1, errs1))
    (hinv : ∀ e ∈ entries, ∃ f u up sz hs, e = [f, u, up, sz, hs] ∧
      assetUpToDate env s1.fs f sz hs = true) :
    ∃ s2 errs2, main env base entries { s1 with fetchLog := [] } =
        .ok (s2, errs2) ∧
      ∀ pr ∈ s2.fetchLog, ∃ g, pr.2 = descPath g := by
  obtain ⟨s2, errs2, heq, hfl, _⟩ := runAll_skip_all env base entries
    { s1 with errorLog := none, fetchLog := [] }
    (by
      intro e he
      obtain ⟨f, u, up, sz, hs, rfl, h⟩ := hinv e he
      exact ⟨f, u, up, sz, hs, rfl, h⟩)
  refine ⟨s2, errs2, heq, ?_⟩
  intro pr hpr
  rcases hfl pr hpr with h | h
  · simp at h
  · exact h

/-- C7 witness: after a real first run from an empty world, the second run
fetches only descriptions. -/
theorem C7_second_run_no_refetch_witness :
    ∃ s2 errs2, main envOkW "http://w" [["x", "http://u", "al", "1", "aa"]]
        { s1W with fetchLog := [] } = .ok (s2, errs2) ∧
      ∀ pr ∈ s2.fetchLog, ∃ g, pr.2 = descPath g :=
  C7_second_run_no_refetch envOkW "http://w"
    [["x", "http://u", "al", "1", "aa"]] stEmptyW s1W [] rfl
    (by
      intro e he
      rw [List.mem_singleton] at he
      subst he
      exact ⟨"x", "http://u", "al", "1", "aa", rfl, rfl⟩)

/-- C8: the run behaves as if any pre-existing error log were deleted at
start (a no-op when absent), and a run in which no URL answers 404 ends with
the error-log file absent. -/
theorem C8_errorLog_reset (env : Env) (base : String)
    (entries : List (List String)) (s : St)
    (h5 : ∀ e ∈ entries, e.length = 5)
    (hno : ∀ url, env.net url ≠ .notFound) :
    main env base entries s = main env base entries { s with errorLog := none } ∧
    ∃ s2 errs, main env base entries s = .ok (s2, errs) ∧
      s2.errorLog = none := by
  refine ⟨rfl, ?_⟩
  obtain ⟨s2, errs, heq, hlog⟩ := runAll_errorLog_no404 env base entries
    { s with errorLog := none } h5 hno
  exact ⟨s2, errs, heq, hlog⟩

/-- C8 witness: a run with a stale error log and no 404s deletes the log and
never re-creates it. -/
theorem C8_errorLog_reset_witness :
    main envOkW "http://w" [["x", "http://u", "al", "1", "aa"]] stLogW =
      main envOkW "http://w" [["x", "http://u", "al", "1", "aa"]]
        { stLogW with errorLog := none } ∧
    ∃ s2 errs, main envOkW "http://w" [["x", "http://u", "al", "1", "aa"]]
        stLogW = .ok (s2, errs) ∧ s2.errorLog = none :=
  C8_errorLog_reset envOkW "http://w" [["x", "http://u", "al", "1", "aa"]]
    stLogW (by decide) (fun url h => Response.noConfusion h)

/-- C9 counterexample: two distinct manifest entries sharing a filename
derive the same asset destination path and the same description destination
path, refuting distinctness for every pair of distinct entries. -/
theorem C9_counterexample :
    (["a.png", "http://x/1", "alice", "1", "aa"] : List String) ≠
      ["a.png", "http://y/2", "bob", "1", "aa"] ∧
    entryAssetPath ["a.png", "http://x/1", "alice", "1", "aa"] =
      entryAssetPath ["a.png", "http://y/2", "bob", "1", "aa"] ∧
    entryDescPath ["a.png", "http://x/1", "alice", "1", "aa"] =
      entryDescPath ["a.png", "http://y/2", "bob", "1", "aa"] :=
  ⟨by decide, rfl, rfl⟩

/-- C9 amended: for every pair of entries with distinct filenames, the
derived asset paths are distinct and the derived description paths are
distinct (both are functions of the filename alone), and an asset path never
coincides with a description path. -/
theorem C9_distinct_filename_paths (f g : String) (hne : f ≠ g) :
    imagePath f ≠ imagePath g ∧ descPath f ≠ descPath g ∧
    ∀ a b : String, imagePath a ≠ descPath b :=
  ⟨fun h => hne (imagePath_inj h), fun h => hne (descPath_inj h),
   imagePath_ne_descPath⟩

/-- C9 witness: two concrete distinct filenames. -/
theorem C9_distinct_filename_paths_witness :
    imagePath "a" ≠ imagePath "b" ∧ descPath "a" ≠ descPath "b" ∧
    ∀ a b : String, imagePath a ≠ descPath b :=
  C9_distinct_filename_paths "a" "b" (by decide)

/-- C10: the final report's error strings appear grouped per entry in
manifest order: the aggregate list is exactly the in-order flattening of the
per-entry error lists, one per entry, because results are collected by an
order-preserving map over the submission sequence. -/
theorem C10_report_grouped_in_order (env : Env) (base : String)
    (entries : List (List String)) (s : St)
    (h5 : ∀ e ∈ entries, e.length = 5) :
    ∃ s2, main env base entries s = .ok (s2,
        (entryErrorLists env base entries { s with errorLog := none }).flatten) ∧
      (entryErrorLists env base entries { s with errorLog := none }).length =
        entries.length :=
  runAll_join env base entries { s with errorLog := none } h5

/-- C10 witness: a concrete two-entry run, each entry 404ing, yields the
flattened per-entry error lists in manifest order. -/
theorem C10_report_grouped_in_order_witness :
    ∃ s2, main env404W "http://w"
        [["x", "http://u", "al", "1", "aa"], ["y", "http://v", "bob", "2", "bb"]]
        stEmptyW = .ok (s2,
        (entryErrorLists env404W "http://w"
          [["x", "http://u", "al", "1", "aa"], ["y", "http://v", "bob", "2", "bb"]]
          { stEmptyW with errorLog := none }).flatten) ∧
      (entryErrorLists env404W "http://w"
        [["x", "http://u", "al", "1", "aa"], ["y", "http://v", "bob", "2", "bb"]]
        { stEmptyW with errorLog := none }).length = 2 :=
  C10_report_grouped_in_order env404W "http://w"
    [["x", "http://u", "al", "1", "aa"], ["y", "http://v", "bob", "2", "bb"]]
    stEmptyW (by decide)

end ImageDownloader
